import Mathlib

/-!
# Verification of the scintillis frame scheduler and command pipeline

Shallow embedding of `src/app.rs` and `src/graphics.rs`.

Modelling conventions:
* Time is measured in whole milliseconds. `Instant` values are `Nat`
  timestamps (successive samples of `Instant::now()`, which is monotone),
  `Duration` values are `Nat` millisecond counts, and `Instant`
  subtraction is truncated `Nat` subtraction. `Duration::from_millis k`
  is `k` and `Duration::from_secs 1` is `1000`.
* `f32` arithmetic in `pixel_to_unit` and the `target_fps` parameter is
  modelled by exact rationals; every concrete value appearing in a
  theorem below is exactly representable in `f32` and far from any
  rounding boundary, so exact arithmetic agrees with the `f32` result.
* `i32` arithmetic wraps (release-mode Rust semantics), made explicit by
  `wrap32`; `u8` arithmetic wraps via `% 256`; the `as u64` cast
  truncates toward zero and saturates at `0` for negative inputs.
* `Vec<Command>` is a `List Command` whose head is the bottom of the
  stack: `push` appends at the tail, `pop` removes the tail element.
* The infinite `loop` in `GameLoop::run` is observed along an arbitrary
  finite prefix of its iterations; the list argument of `GameLoop.run`
  holds the successive values sampled by `Instant::now()`.
-/

namespace Scintillis

/-- Wrapping `i32` arithmetic: reduce an integer into `[-2^31, 2^31)`. -/
def wrap32 (z : Int) : Int := (z + 2 ^ 31) % 2 ^ 32 - 2 ^ 31

/-- `enum Direction` from `src/app.rs`. -/
inductive Direction
| up
| down
| left
| right
deriving DecidableEq, Repr

/-- `enum Command` from `src/app.rs`. -/
inductive Command
| quit
| move (direction : Direction)
deriving DecidableEq, Repr

/-- `glutin::ElementState`: whether a key event is a press or a release. -/
inductive ElementState
| pressed
| released
deriving DecidableEq, Repr

/-- `glutin::VirtualKeyCode`, restricted to the keys the program maps;
`other n` stands for any of the remaining key codes. -/
inductive VirtualKeyCode
| escape
| up
| down
| left
| right
| other (code : Nat)
deriving DecidableEq, Repr

/-- `glutin::Event`: a keyboard event carries the press/release state, a
scancode and an optional virtual key code; `otherEvent n` stands for any
non-keyboard event variant. -/
inductive Event
| keyboardInput (state : ElementState) (scancode : Nat) (key : Option VirtualKeyCode)
| otherEvent (tag : Nat)
deriving DecidableEq, Repr

/-- `get_keyboard_command` from `src/app.rs`: the fixed key table. -/
def get_keyboard_command : VirtualKeyCode → Option Command
| .escape => some .quit
| .up => some (.move .up)
| .down => some (.move .down)
| .left => some (.move .left)
| .right => some (.move .right)
| .other _ => none

/-- `process_events` from `src/app.rs`: take at most one event from the
iterator (`events.next()`); a released key that the table maps is pushed
onto the command vector's tail; everything else is dropped. Returns the
remaining iterator and the updated command vector. -/
def process_events : List Event → List Command → List Event × List Command
| [], commands => ([], commands)
| event :: rest, commands =>
  match event with
  | .keyboardInput .released _ (some key) =>
    (rest,
      match get_keyboard_command key with
      | some command => commands ++ [command]
      | none => commands)
  | _ => (rest, commands)

/-- `pixel_to_unit` from `src/graphics.rs`. -/
def pixel_to_unit (pixel : Int) (bound : Nat) : ℚ :=
  let origin : ℚ := (bound : ℚ) / 2
  ((pixel : ℚ) - origin) / origin

/-- The four-vertex array pattern `src/graphics.rs` builds in both
`Quad::new` (lines 38-43, with the window's inner size and the stored
size) and `Quad::translate` (lines 64-71, with hardcoded `800`, `600`
and `(50, 50)`). -/
def vertexArray (width height : Nat) (origin size : Int × Int) : List (ℚ × ℚ) :=
  [ (pixel_to_unit origin.1 width,
     pixel_to_unit (wrap32 ((height : Int) - origin.2)) height),
    (pixel_to_unit (wrap32 (origin.1 + size.1)) width,
     pixel_to_unit (wrap32 ((height : Int) - origin.2)) height),
    (pixel_to_unit origin.1 width,
     pixel_to_unit (wrap32 ((height : Int) - origin.2 - size.2)) height),
    (pixel_to_unit (wrap32 (origin.1 + size.1)) width,
     pixel_to_unit (wrap32 ((height : Int) - origin.2 - size.2)) height) ]

/-- `struct Quad` from `src/graphics.rs`. `windowSize` models the inner
size in pixels of the `Display` the quad's `window` field refers to;
the GPU handles (`indices`, `program`) carry no verifiable state. -/
structure Quad where
  position : Int × Int
  size : Int × Int
  windowSize : Nat × Nat
  vertices : List (ℚ × ℚ)
deriving DecidableEq, Repr

/-- `Quad::new` from `src/graphics.rs`: the vertex buffer is generated
from the origin, the given size and the window's actual inner size. -/
def Quad.new (windowSize : Nat × Nat) (origin size : Int × Int) : Quad :=
  { position := origin
    size := size
    windowSize := windowSize
    vertices := vertexArray windowSize.1 windowSize.2 origin size }

/-- `Quad::translate` from `src/graphics.rs`: shift the stored position
by 32 pixels on the axis given by `direction`, then regenerate the
vertex buffer using the hardcoded bounds `width = 800`, `height = 600`
and `size = (50, 50)` (the stored `size` and the real window size are
not consulted). -/
def Quad.translate (q : Quad) (direction : Direction) : Quad :=
  let position :=
    match direction with
    | .up => (q.position.1, wrap32 (q.position.2 - 32))
    | .down => (q.position.1, wrap32 (q.position.2 + 32))
    | .left => (wrap32 (q.position.1 - 32), q.position.2)
    | .right => (wrap32 (q.position.1 + 32), q.position.2)
  { q with
    position := position
    vertices := vertexArray 800 600 position (50, 50) }

/-- `update_and_keep_running` from `src/app.rs`: pop one command off the
vector's tail; `Quit` stops the loop, `Move` translates the quad, an
empty vector is a no-op. Returns the remaining commands, the quad and
the keep-running flag. -/
def update_and_keep_running (commands : List Command) (quad : Quad) :
    List Command × Quad × Bool :=
  match commands.getLast? with
  | some .quit => (commands.dropLast, quad, false)
  | some (.move direction) => (commands.dropLast, quad.translate direction, true)
  | none => (commands, quad, true)

/-- `enum FrameThrottler` from `src/app.rs`. -/
inductive FrameThrottler
| skip
| run (delta : Nat)
deriving DecidableEq, Repr

/-- `struct GameLoop` from `src/app.rs`. `frame_count` is a `u8` held as
a `Nat` below `256`; the instants are millisecond timestamps. -/
structure GameLoop where
  frame_interval : Nat
  frame_count : Nat
  previous_instant : Nat
  previous_second : Nat
deriving DecidableEq, Repr

/-- `GameLoop::new` from `src/app.rs`: the interval is
`Duration::from_millis(1_000 / target_fps as u64)`. The cast
`target_fps as u64` truncates toward zero (saturating at `0` for
non-positive inputs), which `Int.toNat ∘ Rat.floor` computes; when it
yields `0` the integer division `1_000 / 0` panics, modelled as `none`.
`now` stands for the two `Instant::now()` samples. -/
def GameLoop.new (target_fps : ℚ) (now : Nat) : Option GameLoop :=
  let fps_u64 : Nat := (⌊target_fps⌋).toNat
  if fps_u64 = 0 then none
  else
    some
      { frame_interval := 1000 / fps_u64
        frame_count := 0
        previous_instant := now
        previous_second := now }

/-- `GameLoop::throttle` from `src/app.rs`: skip (after sleeping, which
has no observable state effect) when the elapsed time since the last
executed frame is below `frame_interval`, otherwise run with the delta. -/
def GameLoop.throttle (s : GameLoop) (current_instant : Nat) : FrameThrottler :=
  let delta := current_instant - s.previous_instant
  if delta < s.frame_interval then .skip else .run delta

/-- `GameLoop::update_fps_display` from `src/app.rs`: increment the `u8`
frame counter (wrapping); when at least one second has elapsed since
`previous_second`, print the counter (returned as `some count`) and
reset the window. -/
def GameLoop.update_fps_display (s : GameLoop) (current_instant : Nat) :
    GameLoop × Option Nat :=
  let frame_count := (s.frame_count + 1) % 256
  if 1000 ≤ current_instant - s.previous_second then
    ({ s with frame_count := 0, previous_second := current_instant }, some frame_count)
  else
    ({ s with frame_count := frame_count }, none)

/-- `GameLoop::run` from `src/app.rs`, observed along a finite prefix of
`Instant::now()` samples, one per loop iteration. The loop body is a
state-passing function on `σ` (the closure's captured state) returning
the keep-running flag. Returns the list of executed frames (instant and
post-body state), the final `GameLoop` bookkeeping and the final body
state. A `Skip` iteration re-enters the loop with everything unchanged;
on a `Run` iteration the body executes, and only if it keeps running are
`previous_instant` and the FPS window updated. -/
def GameLoop.run {σ : Type} (body : Nat → σ → Bool × σ) :
    GameLoop → σ → List Nat → List (Nat × σ) × GameLoop × σ
| s, x, [] => ([], s, x)
| s, x, t :: ts =>
  match s.throttle t with
  | .skip => GameLoop.run body s x ts
  | .run delta =>
    let (keep, x1) := body delta x
    if keep then
      let s1 := (GameLoop.update_fps_display { s with previous_instant := t } t).1
      let (trace, sf, xf) := GameLoop.run body s1 x1 ts
      ((t, x1) :: trace, sf, xf)
    else
      ([(t, x1)], s, x1)

/-- The mutable state captured by the closure in `App::run`: the event
iterator, the command vector and the quad. Rendering touches none of it. -/
structure AppState where
  events : List Event
  commands : List Command
  quad : Quad
deriving DecidableEq, Repr

/-- The per-frame closure of `App::run` (`src/app.rs` lines 54-60):
process one event, then dispatch one command; the elapsed-time argument
is ignored (`|_|`). `render` has no effect on this state. -/
def appBody (_delta : Nat) (x : AppState) : Bool × AppState :=
  let (events, commands) := process_events x.events x.commands
  let (commands2, quad, keep) := update_and_keep_running commands x.quad
  (keep, { events := events, commands := commands2, quad := quad })

/-- Fold of `update_fps_display` over the instants of successive
executed frames, collecting the printed FPS counts. In `GameLoop::run`,
`update_fps_display current_instant` runs exactly once per executed
frame that keeps the loop alive. -/
def fpsRun : GameLoop → List Nat → GameLoop × List Nat
| s, [] => (s, [])
| s, t :: ts =>
  let (s1, emitted) := s.update_fps_display t
  let (s2, out) := fpsRun s1 ts
  (s2, emitted.toList ++ out)

end Scintillis

namespace Scintillis

/-! ## Shared concrete instances -/

/-- The quad `App::run` constructs (`Quad::new(&display, (32, 32), (32, 32))`)
on the default-config 640x480 window. -/
def q0ex : Quad := Quad.new (640, 480) (32, 32) (32, 32)

/-- A freshly constructed game loop with a zero frame interval, anchored
at instant `0`. -/
def s0ex : GameLoop :=
  { frame_interval := 0, frame_count := 0, previous_instant := 0, previous_second := 0 }

/-- A game loop with a 16 ms frame interval anchored at instant `0`. -/
def s16ex : GameLoop :=
  { frame_interval := 16, frame_count := 0, previous_instant := 0, previous_second := 0 }

/-! ## Helper lemmas -/

/-- An integer already in the `i32` range is fixed by `wrap32`. -/
lemma wrap32_eq_self {z : Int} (h1 : -(2 ^ 31) ≤ z) (h2 : z < 2 ^ 31) :
    wrap32 z = z := by
  unfold wrap32
  omega

/-- `wrap32` absorbs into addition. -/
lemma wrap32_add (a b : Int) : wrap32 (wrap32 a + b) = wrap32 (a + b) := by
  unfold wrap32
  omega

/-- `wrap32` absorbs into subtraction. -/
lemma wrap32_sub (a b : Int) : wrap32 (wrap32 a - b) = wrap32 (a - b) := by
  unfold wrap32
  omega

/-- `update_fps_display` never touches `frame_interval` or `previous_instant`. -/
lemma update_fps_display_preserves (s : GameLoop) (t : Nat) :
    ((s.update_fps_display t).1.frame_interval = s.frame_interval) ∧
    ((s.update_fps_display t).1.previous_instant = s.previous_instant) := by
  unfold GameLoop.update_fps_display
  split <;> simp

end Scintillis

namespace Scintillis

/-! ## C1: frame interval formula -/

/-- C1 counterexample: at `target_fps = 2.5` the code computes a 500 ms
interval (`1000 / trunc(2.5) = 1000 / 2`), while the claimed formula
`floor(1000 / target_fps)` gives 400 ms. -/
theorem frame_interval_fractional_fps_cex :
    (GameLoop.new (5 / 2) 0).map GameLoop.frame_interval = some 500 ∧
    ⌊(1000 : ℚ) / (5 / 2)⌋ = 400 ∧ (500 : ℕ) ≠ 400 := by
  have h : ⌊(5 / 2 : ℚ)⌋ = 2 := by norm_num
  refine ⟨?_, by norm_num, by decide⟩
  simp [GameLoop.new, h]

/-- C1 (amended): for every `target_fps ≥ 1` the frame interval equals
`floor(1000 / trunc(target_fps))` milliseconds — the rate is truncated to
an integer *before* the division. For the integral example rates this
agrees with the claimed `floor(1000 / target_fps)`: 60.0 → 16 ms,
30.0 → 33 ms, 24.0 → 41 ms. -/
theorem frame_interval_eq_div_trunc_fps (target_fps : ℚ) (now : Nat)
    (h : 1 ≤ target_fps) :
    (GameLoop.new target_fps now).map GameLoop.frame_interval =
      some (1000 / (⌊target_fps⌋).toNat) ∧
    (GameLoop.new 60 now).map GameLoop.frame_interval = some 16 ∧
    (GameLoop.new 30 now).map GameLoop.frame_interval = some 33 ∧
    (GameLoop.new 24 now).map GameLoop.frame_interval = some 41 := by
  have hfl : 1 ≤ ⌊target_fps⌋ := by
    rw [Int.le_floor]
    exact_mod_cast h
  have hne : (⌊target_fps⌋).toNat ≠ 0 := by omega
  refine ⟨?_, ?_, ?_, ?_⟩
  · simp [GameLoop.new, hne]
  · simp [GameLoop.new]
  · simp [GameLoop.new]
  · simp [GameLoop.new]

/-- C1 witness: the amended theorem applied at `target_fps = 60`. -/
theorem frame_interval_eq_div_trunc_fps_witness :
    (1 : ℚ) ≤ 60 ∧
    (GameLoop.new 60 0).map GameLoop.frame_interval =
      some (1000 / (⌊(60 : ℚ)⌋).toNat) :=
  ⟨by norm_num, (frame_interval_eq_div_trunc_fps 60 0 (by norm_num)).1⟩

end Scintillis

namespace Scintillis

/-! ## C5: construction with non-positive (and sub-unit) rates -/

/-- C5 counterexample: `target_fps = 0.5` is positive, yet construction
fails — `0.5 as u64 = 0` and `1000 / 0` panics — so "for every
`target_fps > 0` construction succeeds" is false. -/
theorem new_fails_on_half_fps_cex :
    (0 : ℚ) < 1 / 2 ∧ GameLoop.new (1 / 2) 0 = none := by
  refine ⟨by norm_num, ?_⟩
  simp only [GameLoop.new]
  norm_num

/-- C5 (amended): construction with `target_fps ≤ 0` does fail (the
truncated-to-`u64` rate is `0` and the integer division panics), and the
failure happens in `new`, before `run` is entered; but construction in
fact fails exactly when `target_fps < 1`, so it also fails for some
positive rates; for `target_fps ≥ 1` it succeeds with the well-defined
interval `1000 / trunc(target_fps)`. -/
theorem new_rejects_nonpositive_fps (target_fps : ℚ) (now : Nat)
    (hnp : target_fps ≤ 0) :
    GameLoop.new target_fps now = none ∧
    (∀ fps : ℚ, GameLoop.new fps now = none ↔ fps < 1) ∧
    (∀ fps : ℚ, 1 ≤ fps →
      ∃ s, GameLoop.new fps now = some s ∧
        s.frame_interval = 1000 / (⌊fps⌋).toNat) := by
  have key : ∀ fps : ℚ, GameLoop.new fps now = none ↔ fps < 1 := by
    intro fps
    constructor
    · intro h
      by_contra hlt
      push_neg at hlt
      have hfl : 1 ≤ ⌊fps⌋ := by
        rw [Int.le_floor]
        exact_mod_cast hlt
      have hne : (⌊fps⌋).toNat ≠ 0 := by omega
      simp [GameLoop.new, hne] at h
    · intro h
      have hfl : ⌊fps⌋ < 1 := by
        rw [Int.floor_lt]
        exact_mod_cast h
      have hz : (⌊fps⌋).toNat = 0 := by omega
      simp [GameLoop.new, hz]
  refine ⟨(key target_fps).mpr (by linarith), key, ?_⟩
  intro fps hfps
  have hfl : 1 ≤ ⌊fps⌋ := by
    rw [Int.le_floor]
    exact_mod_cast hfps
  have hne : (⌊fps⌋).toNat ≠ 0 := by omega
  refine ⟨⟨1000 / (⌊fps⌋).toNat, 0, now, now⟩, ?_, rfl⟩
  simp [GameLoop.new, hne]

/-- C5 witness: the amended theorem applied at `target_fps = -3`,
together with its success branch at `60`. -/
theorem new_rejects_nonpositive_fps_witness :
    (-3 : ℚ) ≤ 0 ∧ GameLoop.new (-3) 0 = none ∧
    ∃ s, GameLoop.new 60 0 = some s ∧ s.frame_interval = 1000 / (⌊(60 : ℚ)⌋).toNat :=
  ⟨by norm_num, (new_rejects_nonpositive_fps (-3) 0 (by norm_num)).1,
   (new_rejects_nonpositive_fps (-3) 0 (by norm_num)).2.2 60 (by norm_num)⟩

end Scintillis

namespace Scintillis

/-! ## C4: translate round trips and step size -/

/-- An integer value representable as an `i32`. -/
def isI32 (z : Int) : Prop := -(2 ^ 31) ≤ z ∧ z < 2 ^ 31

instance (z : Int) : Decidable (isI32 z) := by
  unfold isI32
  infer_instance

/-- C4 counterexample: at the representable starting position
`(0, -2^31)` (the `i32` minimum), `translate(Up)` wraps the vertical
coordinate to `2^31 - 32` instead of shifting it down by exactly 32
pixels, so the claim does not hold for *every* starting position. -/
theorem translate_step_wraps_at_i32_min_cex :
    ((Quad.new (640, 480) (0, -(2 ^ 31)) (32, 32)).translate .up).position.2 =
      2 ^ 31 - 32 ∧
    (2 ^ 31 - 32 : Int) ≠ -(2 ^ 31) - 32 := by
  refine ⟨?_, by decide⟩
  simp only [Quad.new, Quad.translate, wrap32]
  decide

/-- C4 (amended): for every starting position whose coordinates are
representable `i32` values, `translate(Up)` then `translate(Down)` (and
`Left` then `Right`, and the opposite orders) returns the stored
position exactly to `(x, y)`; each single `translate` changes only the
coordinate on its own axis, and shifts it by exactly 32 pixels provided
the shifted value stays inside the `i32` range (at the two extreme ends
of the range the `i32` arithmetic wraps instead). -/
theorem translate_round_trip_and_step (q : Quad)
    (hx : isI32 q.position.1) (hy : isI32 q.position.2) :
    (((q.translate .up).translate .down).position = q.position ∧
     ((q.translate .down).translate .up).position = q.position ∧
     ((q.translate .left).translate .right).position = q.position ∧
     ((q.translate .right).translate .left).position = q.position) ∧
    ((q.translate .up).position.1 = q.position.1 ∧
     (q.translate .down).position.1 = q.position.1 ∧
     (q.translate .left).position.2 = q.position.2 ∧
     (q.translate .right).position.2 = q.position.2) ∧
    ((isI32 (q.position.2 - 32) →
       (q.translate .up).position = (q.position.1, q.position.2 - 32)) ∧
     (isI32 (q.position.2 + 32) →
       (q.translate .down).position = (q.position.1, q.position.2 + 32)) ∧
     (isI32 (q.position.1 - 32) →
       (q.translate .left).position = (q.position.1 - 32, q.position.2)) ∧
     (isI32 (q.position.1 + 32) →
       (q.translate .right).position = (q.position.1 + 32, q.position.2))) := by
  obtain ⟨hx1, hx2⟩ := hx
  obtain ⟨hy1, hy2⟩ := hy
  refine ⟨⟨?_, ?_, ?_, ?_⟩, ⟨rfl, rfl, rfl, rfl⟩, ?_, ?_, ?_, ?_⟩
  · simp only [Quad.translate, wrap32_add]
    rw [show q.position.2 - 32 + 32 = q.position.2 by ring, wrap32_eq_self hy1 hy2]
  · simp only [Quad.translate, wrap32_sub]
    rw [show q.position.2 + 32 - 32 = q.position.2 by ring, wrap32_eq_self hy1 hy2]
  · simp only [Quad.translate, wrap32_add]
    rw [show q.position.1 - 32 + 32 = q.position.1 by ring, wrap32_eq_self hx1 hx2]
  · simp only [Quad.translate, wrap32_sub]
    rw [show q.position.1 + 32 - 32 = q.position.1 by ring, wrap32_eq_self hx1 hx2]
  · intro ⟨h1, h2⟩
    simp only [Quad.translate, wrap32_eq_self h1 h2]
  · intro ⟨h1, h2⟩
    simp only [Quad.translate, wrap32_eq_self h1 h2]
  · intro ⟨h1, h2⟩
    simp only [Quad.translate, wrap32_eq_self h1 h2]
  · intro ⟨h1, h2⟩
    simp only [Quad.translate, wrap32_eq_self h1 h2]

/-- C4 witness: the amended theorem applied to the quad `App::run`
constructs at `(32, 32)`. -/
theorem translate_round_trip_and_step_witness :
    isI32 q0ex.position.1 ∧ isI32 q0ex.position.2 ∧
    ((q0ex.translate .up).translate .down).position = q0ex.position ∧
    (isI32 (q0ex.position.1 + 32) →
      (q0ex.translate .right).position = (q0ex.position.1 + 32, q0ex.position.2)) :=
  ⟨by decide, by decide,
   (translate_round_trip_and_step q0ex (by decide) (by decide)).1.1,
   (translate_round_trip_and_step q0ex (by decide) (by decide)).2.2.2.2.2⟩

end Scintillis

namespace Scintillis

/-! ## C9: translate regenerates geometry from hardcoded bounds -/

/-- C9: `Quad::translate` rebuilds the vertex buffer from the fixed
constants `800 × 600` and `(50, 50)`: two quads at the same position get
identical vertices after a translate regardless of their stored `size`
fields and of their windows; the regenerated buffer is exactly
`vertexArray 800 600 position (50, 50)`; and concretely, for the quad
`App::run` builds on the default 640 × 480 window with size `(32, 32)`,
the geometry after `translate(Right)` differs from the geometry
`Quad::new` computes for the very same position. -/
theorem translate_uses_hardcoded_bounds :
    (∀ (q q' : Quad) (d : Direction), q.position = q'.position →
      (q.translate d).vertices = (q'.translate d).vertices ∧
      (q.translate d).position = (q'.translate d).position) ∧
    (∀ (q : Quad) (d : Direction),
      (q.translate d).vertices = vertexArray 800 600 (q.translate d).position (50, 50) ∧
      (q.translate d).size = q.size ∧ (q.translate d).windowSize = q.windowSize) ∧
    ((q0ex.translate .right).vertices ≠
      (Quad.new (640, 480) (q0ex.translate .right).position (32, 32)).vertices) := by
  refine ⟨?_, ?_, ?_⟩
  · intro q q' d h
    cases d <;> simp [Quad.translate, h]
  · intro q d
    cases d <;> exact ⟨rfl, rfl, rfl⟩
  · norm_num [q0ex, Quad.new, Quad.translate, vertexArray, pixel_to_unit, wrap32]

/-- C9 witness: two quads sharing the position `(32, 32)` but with
different sizes and windows have identical vertices after
`translate(Up)`. -/
theorem translate_uses_hardcoded_bounds_witness :
    (q0ex.translate .up).vertices =
      ((Quad.new (800, 600) (32, 32) (50, 50)).translate .up).vertices :=
  (translate_uses_hardcoded_bounds.1 q0ex (Quad.new (800, 600) (32, 32) (50, 50))
    .up rfl).1

end Scintillis

namespace Scintillis

/-! ## C7: event translation -/

/-- C7: `process_events` pulls at most one pending event per call (the
head of the iterator; an empty iterator leaves everything unchanged);
only key-*release* events with a mapped key append a command — at the
queue's tail; key-press events, events without a key code and
non-keyboard events produce nothing; and the key table is exactly
`Escape → Quit`, arrows → `Move(direction)`, every other key → nothing. -/
theorem process_events_translation :
    (∀ commands, process_events [] commands = ([], commands)) ∧
    (∀ scancode key rest commands,
      process_events (Event.keyboardInput .released scancode (some key) :: rest)
        commands = (rest, commands ++ (get_keyboard_command key).toList)) ∧
    (∀ scancode okey rest commands,
      process_events (Event.keyboardInput .pressed scancode okey :: rest)
        commands = (rest, commands)) ∧
    (∀ st scancode rest commands,
      process_events (Event.keyboardInput st scancode none :: rest)
        commands = (rest, commands)) ∧
    (∀ tag rest commands,
      process_events (Event.otherEvent tag :: rest) commands = (rest, commands)) ∧
    (get_keyboard_command .escape = some .quit ∧
     get_keyboard_command .up = some (.move .up) ∧
     get_keyboard_command .down = some (.move .down) ∧
     get_keyboard_command .left = some (.move .left) ∧
     get_keyboard_command .right = some (.move .right) ∧
     ∀ code, get_keyboard_command (.other code) = none) := by
  refine ⟨fun commands => rfl, ?_, ?_, ?_, fun tag rest commands => rfl,
    rfl, rfl, rfl, rfl, rfl, fun code => rfl⟩
  · intro scancode key rest commands
    cases key <;> simp [process_events, get_keyboard_command]
  · intro scancode okey rest commands
    cases okey <;> rfl
  · intro st scancode rest commands
    cases st <;> rfl

end Scintillis

namespace Scintillis

/-! ## C3: LIFO command queue -/

/-- The state captured by `App::run` when the queue already holds the
commands produced by the input events `[Up, Left, Down]`, in arrival
order, with no further pending events. -/
def x0lifo : AppState :=
  { events := [], commands := [.move .up, .move .left, .move .down], quad := q0ex }

/-- C3: commands are appended at the tail and popped from the tail —
`update_and_keep_running` consumes exactly the most recently pushed
command and leaves the rest of the backlog for later frames — and in
the concrete scenario where `[Up, Left, Down]` are queued before three
frames execute, the backlog persists across the frames and the moves
are applied in the order `Down`, then `Left`, then `Up`. -/
theorem command_queue_lifo :
    (∀ commands quad direction,
      update_and_keep_running (commands ++ [Command.move direction]) quad =
        (commands, quad.translate direction, true)) ∧
    (∀ commands quad,
      update_and_keep_running (commands ++ [Command.quit]) quad =
        (commands, quad, false)) ∧
    ((GameLoop.run appBody s0ex x0lifo [0, 1, 2]).1.map (fun p => p.2.commands) =
      [[.move .up, .move .left], [.move .up], []]) ∧
    ((GameLoop.run appBody s0ex x0lifo [0, 1, 2]).1.map (fun p => p.2.quad) =
      [q0ex.translate .down,
       (q0ex.translate .down).translate .left,
       ((q0ex.translate .down).translate .left).translate .up]) := by
  refine ⟨?_, ?_, by decide, rfl⟩
  · intro commands quad direction
    simp [update_and_keep_running, List.getLast?_concat, List.dropLast_concat]
  · intro commands quad
    simp [update_and_keep_running, List.getLast?_concat, List.dropLast_concat]

end Scintillis

namespace Scintillis

/-! ## C2: throttle invariant -/

/-- Unfolding `GameLoop.run` on a skipped iteration: everything —
`previous_instant`, `previous_second`, `frame_count`, the body state —
is passed on unchanged. -/
lemma GameLoop.run_cons_skip {σ : Type} (body : Nat → σ → Bool × σ) (s : GameLoop)
    (x : σ) (t : Nat) (ts : List Nat) (h : s.throttle t = .skip) :
    GameLoop.run body s x (t :: ts) = GameLoop.run body s x ts := by
  simp only [GameLoop.run, h]

/-- Unfolding `GameLoop.run` on an executed frame whose body keeps the
loop alive. -/
lemma GameLoop.run_cons_exec {σ : Type} (body : Nat → σ → Bool × σ) (s : GameLoop)
    (x x1 : σ) (t : Nat) (ts : List Nat) (d : Nat)
    (hth : s.throttle t = .run d) (hb : body d x = (true, x1)) :
    GameLoop.run body s x (t :: ts) =
      ((t, x1) ::
        (GameLoop.run body
          (GameLoop.update_fps_display { s with previous_instant := t } t).1 x1 ts).1,
       (GameLoop.run body
          (GameLoop.update_fps_display { s with previous_instant := t } t).1 x1 ts).2) := by
  simp [GameLoop.run, hth, hb]

/-- Unfolding `GameLoop.run` on the executed frame that stops the loop. -/
lemma GameLoop.run_cons_stop {σ : Type} (body : Nat → σ → Bool × σ) (s : GameLoop)
    (x x1 : σ) (t : Nat) (ts : List Nat) (d : Nat)
    (hth : s.throttle t = .run d) (hb : body d x = (false, x1)) :
    GameLoop.run body s x (t :: ts) = ([(t, x1)], s, x1) := by
  simp [GameLoop.run, hth, hb]

/-- A `≤`-chain survives relaxing its head. -/
lemma chain_le_of_le {a b : Nat} {l : List Nat} (h : a ≤ b)
    (hc : List.Chain (fun u v => u ≤ v) b l) :
    List.Chain (fun u v => u ≤ v) a l := by
  cases hc with
  | nil => exact List.Chain.nil
  | cons hbc hcs => exact List.Chain.cons (le_trans h hbc) hcs

/-- Core induction: along any monotone sequence of `Instant::now()`
samples, the executed-frame instants are spaced at least
`frame_interval` apart, starting from `previous_instant`. -/
lemma run_gap_chain {σ : Type} (body : Nat → σ → Bool × σ) (ts : List Nat) :
    ∀ (s : GameLoop) (x : σ),
      List.Chain (fun a b => a ≤ b) s.previous_instant ts →
      List.Chain (fun a b => a + s.frame_interval ≤ b) s.previous_instant
        ((GameLoop.run body s x ts).1.map Prod.fst) := by
  induction ts with
  | nil =>
    intro s x _
    exact List.Chain.nil
  | cons t ts ih =>
    intro s x h
    cases h with
    | cons hle hch =>
      by_cases hth : t - s.previous_instant < s.frame_interval
      · rw [GameLoop.run_cons_skip body s x t ts (by simp [GameLoop.throttle, hth])]
        exact ih s x (chain_le_of_le hle hch)
      · have hrun : s.throttle t = .run (t - s.previous_instant) := by
          simp [GameLoop.throttle, hth]
        have hgap : s.previous_instant + s.frame_interval ≤ t := by omega
        rcases hb : body (t - s.previous_instant) x with ⟨keep, x1⟩
        cases keep with
        | false =>
          rw [GameLoop.run_cons_stop body s x x1 t ts _ hrun hb]
          exact List.Chain.cons hgap List.Chain.nil
        | true =>
          rw [GameLoop.run_cons_exec body s x x1 t ts _ hrun hb]
          refine List.Chain.cons hgap ?_
          have hpres :=
            update_fps_display_preserves { s with previous_instant := t } t
          have h1 := ih (GameLoop.update_fps_display { s with previous_instant := t } t).1
            x1 (by rw [hpres.2]; exact hch)
          rw [hpres.1, hpres.2] at h1
          exact h1

/-- C2: in every execution of `GameLoop::run`, a skipped (throttled)
iteration changes nothing — the same `GameLoop` state (including
`previous_instant`, `previous_second`, `frame_count`) and body state
continue into the next iteration — the body is invoked exactly when
`current_instant - previous_instant ≥ frame_interval`, and consequently
(since `previous_instant` advances only on executed frames) any two
consecutive executed frames are at least `frame_interval` apart. -/
theorem throttle_invariant {σ : Type} (body : Nat → σ → Bool × σ) (s : GameLoop)
    (x : σ) (ts : List Nat)
    (hmono : List.Chain (fun a b => a ≤ b) s.previous_instant ts) :
    List.Chain (fun a b => a + s.frame_interval ≤ b) s.previous_instant
      ((GameLoop.run body s x ts).1.map Prod.fst) ∧
    (∀ t rest, s.throttle t = .skip →
      GameLoop.run body s x (t :: rest) = GameLoop.run body s x rest) ∧
    (∀ t, (∃ d, s.throttle t = .run d) ↔
      s.frame_interval ≤ t - s.previous_instant) := by
  refine ⟨run_gap_chain body ts s x hmono,
    fun t rest h => GameLoop.run_cons_skip body s x t rest h, fun t => ?_⟩
  unfold GameLoop.throttle
  by_cases hth : t - s.previous_instant < s.frame_interval
  · simp [hth]
  · simp [hth]
    omega

/-- The trivial loop body: keep running, carry no state. -/
def unitBody : Nat → Unit → Bool × Unit := fun _ x => (true, x)

/-- C2 witness: the invariant instantiated on a 16 ms loop observed at
instants `[5, 16, 20, 40]` (5 and 20 are throttled; 16 and 40 execute). -/
theorem throttle_invariant_witness :
    List.Chain (fun a b => a + s16ex.frame_interval ≤ b) s16ex.previous_instant
      ((GameLoop.run unitBody s16ex () [5, 16, 20, 40]).1.map Prod.fst) ∧
    GameLoop.run unitBody s16ex () (5 :: [40]) = GameLoop.run unitBody s16ex () [40] :=
  ⟨(throttle_invariant unitBody s16ex () [5, 16, 20, 40]
      (List.Chain.cons (by decide) (List.Chain.cons (by decide)
        (List.Chain.cons (by decide) (List.Chain.cons (by decide) List.Chain.nil))))).1,
   (throttle_invariant unitBody s16ex () [] List.Chain.nil).2.1 5 [40] (by decide)⟩

end Scintillis

namespace Scintillis

/-! ## C8: Quit terminates the loop on its frame -/

/-- C8: on an executed frame (the throttle check passes at instant `t`),
if the command popped after event processing is `Quit`, then the frame
body returns `false` and `GameLoop::run` executes that frame and no
other — whatever instants follow and whatever other commands are still
queued below the popped one. -/
theorem quit_terminates_run (s : GameLoop) (x : AppState) (t : Nat) (ts : List Nat)
    (hrun : s.frame_interval ≤ t - s.previous_instant)
    (hquit : (process_events x.events x.commands).2.getLast? = some Command.quit) :
    (∀ delta, (appBody delta x).1 = false) ∧
    (GameLoop.run appBody s x (t :: ts)).1.map Prod.fst = [t] := by
  have hbody : ∀ delta, appBody delta x =
      (false, { events := (process_events x.events x.commands).1,
                commands := (process_events x.events x.commands).2.dropLast,
                quad := x.quad }) := by
    intro delta
    rcases hpe : process_events x.events x.commands with ⟨es, cs⟩
    rw [hpe] at hquit
    simp only at hquit
    simp [appBody, update_and_keep_running, hpe, hquit]
  have hth : s.throttle t = .run (t - s.previous_instant) := by
    unfold GameLoop.throttle
    simp only [if_neg (by omega : ¬ t - s.previous_instant < s.frame_interval)]
  refine ⟨fun delta => by rw [hbody delta], ?_⟩
  rw [GameLoop.run_cons_stop appBody s x _ t ts _ hth (hbody _)]
  rfl

/-- C8 witness: a zero-interval loop at instant `0` with queue
`[Move Up, Quit]` (so `Quit` is popped) executes exactly that one frame
of the observed instants `[0, 1, 2, 3]`. -/
theorem quit_terminates_run_witness :
    s0ex.frame_interval ≤ 0 - s0ex.previous_instant ∧
    (process_events ([] : List Event)
      [Command.move .up, Command.quit]).2.getLast? = some Command.quit ∧
    (GameLoop.run appBody s0ex
      { events := [], commands := [.move .up, .quit], quad := q0ex }
      [0, 1, 2, 3]).1.map Prod.fst = [0] :=
  ⟨by decide, by decide,
   (quit_terminates_run s0ex
     { events := [], commands := [.move .up, .quit], quad := q0ex }
     0 [1, 2, 3] (by decide) (by decide)).2⟩

end Scintillis

namespace Scintillis

/-! ## C6: FPS reporting window -/

/-- Frames strictly inside the reporting window emit nothing and only
count, as long as the `u8` counter does not overflow. -/
lemma fpsRun_within_window (pre : List Nat) :
    ∀ s : GameLoop, (∀ t ∈ pre, t - s.previous_second < 1000) →
      s.frame_count + pre.length < 256 →
      fpsRun s pre = ({ s with frame_count := s.frame_count + pre.length }, []) := by
  induction pre with
  | nil =>
    intro s _ _
    simp [fpsRun]
  | cons t pre ih =>
    intro s hmem hcnt
    have ht : t - s.previous_second < 1000 := hmem t (List.mem_cons_self t pre)
    have hmod : (s.frame_count + 1) % 256 = s.frame_count + 1 := by
      apply Nat.mod_eq_of_lt
      simp at hcnt
      omega
    have hstep : s.update_fps_display t =
        ({ s with frame_count := s.frame_count + 1 }, none) := by
      unfold GameLoop.update_fps_display
      rw [if_neg (by omega), hmod]
    have hrec := ih { s with frame_count := s.frame_count + 1 }
      (by intro u hu; exact hmem u (List.mem_cons_of_mem t hu))
      (by simp at hcnt ⊢; omega)
    simp only [fpsRun, hstep, hrec]
    simp
    omega

/-- `fpsRun` distributes over list append. -/
lemma fpsRun_append (l1 l2 : List Nat) : ∀ s : GameLoop,
    fpsRun s (l1 ++ l2) =
      ((fpsRun (fpsRun s l1).1 l2).1,
       (fpsRun s l1).2 ++ (fpsRun (fpsRun s l1).1 l2).2) := by
  induction l1 with
  | nil => intro s; simp [fpsRun]
  | cons t l1 ih =>
    intro s
    simp only [List.cons_append, fpsRun]
    simp only [List.append_eq]
    rw [ih]
    simp [fpsRun]

set_option maxRecDepth 100000 in
/-- C6 counterexample: with a reachable zero frame interval, 256 frames
fit inside one reporting window (255 frames at instants `1..255`, the
rollover frame at `1000`); the `u8` counter wraps and the loop reports
`0` frames for a window in which 256 frames executed. -/
theorem fps_report_overflow_cex :
    (fpsRun s0ex ((List.range 255).map (fun n => n + 1) ++ [1000])).2 = [0] ∧
    ((List.range 255).map (fun n => n + 1) ++ [1000]).length = 256 ∧
    (∀ t ∈ (List.range 255).map (fun n => n + 1), t - s0ex.previous_second < 1000) ∧
    1000 ≤ 1000 - s0ex.previous_second ∧ s0ex.frame_count = 0 ∧ (0 : ℕ) ≠ 256 := by
  refine ⟨by decide, by decide, by decide, by decide, by decide, by decide⟩

/-- C6 (amended): `update_fps_display` reports exactly once per elapsed
one-second boundary relative to `previous_second` — a report happens iff
`current_instant - previous_second ≥ 1s`, and a rollover emits the
incremented counter, zeroes `frame_count` and re-anchors
`previous_second` at the current instant — and across a window that
starts at a reset and contains the executed frames `pre ++ [tn]` (those
in `pre` strictly before the boundary, `tn` at or past it), the single
reported count equals the number of executed frames in the window,
*provided* fewer than 256 frames fall in the window (the `u8` counter
wraps otherwise). -/
theorem fps_window_report (s : GameLoop) (t : Nat) (pre : List Nat) (tn : Nat)
    (hc0 : s.frame_count = 0)
    (hpre : ∀ u ∈ pre, u - s.previous_second < 1000)
    (hn : 1000 ≤ tn - s.previous_second)
    (hlen : pre.length + 1 < 256) :
    ((GameLoop.update_fps_display s t).2.isSome ↔ 1000 ≤ t - s.previous_second) ∧
    (1000 ≤ t - s.previous_second →
      GameLoop.update_fps_display s t =
        ({ s with frame_count := 0, previous_second := t },
         some ((s.frame_count + 1) % 256))) ∧
    (t - s.previous_second < 1000 →
      GameLoop.update_fps_display s t =
        ({ s with frame_count := (s.frame_count + 1) % 256 }, none)) ∧
    fpsRun s (pre ++ [tn]) =
      ({ s with frame_count := 0, previous_second := tn }, [pre.length + 1]) := by
  refine ⟨?_, ?_, ?_, ?_⟩
  · unfold GameLoop.update_fps_display
    by_cases hb : 1000 ≤ t - s.previous_second <;> simp [hb]
  · intro hb
    unfold GameLoop.update_fps_display
    rw [if_pos hb]
  · intro hb
    unfold GameLoop.update_fps_display
    rw [if_neg (by omega)]
  · have hw := fpsRun_within_window pre s hpre (by omega)
    rw [fpsRun_append, hw]
    have hroll : GameLoop.update_fps_display
        { s with frame_count := s.frame_count + pre.length } tn =
        ({ s with frame_count := 0, previous_second := tn },
         some (pre.length + 1)) := by
      unfold GameLoop.update_fps_display
      simp only
      rw [if_pos (by simpa using hn)]
      have : (s.frame_count + pre.length + 1) % 256 = pre.length + 1 := by
        rw [hc0]
        simp [Nat.mod_eq_of_lt hlen]
      rw [this]
    simp [fpsRun, hroll]

/-- C6 witness: starting from a fresh window at instant 0, frames at
`100`, `200` and `1000` produce exactly one report, of 3 frames, with
the window re-anchored at `1000`. -/
theorem fps_window_report_witness :
    GameLoop.update_fps_display s0ex 1000 =
      ({ s0ex with frame_count := 0, previous_second := 1000 }, some 1) ∧
    fpsRun s0ex ([100, 200] ++ [1000]) =
      ({ s0ex with frame_count := 0, previous_second := 1000 }, [3]) :=
  ⟨(fps_window_report s0ex 1000 [100, 200] 1000 rfl (by decide) (by decide)
      (by decide)).2.1 (by decide),
   (fps_window_report s0ex 1000 [100, 200] 1000 rfl (by decide) (by decide)
      (by decide)).2.2.2⟩

/-! ## C10: u8 frame counter overflow is reachable -/

set_option maxRecDepth 100000 in
/-- C10: the `u8` frame counter's increment is unguarded: for any
`target_fps ≥ 1001` the constructed `frame_interval` is `0` ms, with a
zero interval the throttle lets *every* iteration execute, and 256
executed frames inside one reporting window wrap `frame_count` back to
`0` instead of reaching 256. -/
theorem frame_count_overflow_reachable (fps : ℚ) (s : GameLoop) (t : Nat)
    (hfps : (1001 : ℚ) ≤ fps) (hzero : s.frame_interval = 0) :
    ((GameLoop.new fps 0).map GameLoop.frame_interval = some 0) ∧
    (s.throttle t = .run (t - s.previous_instant)) ∧
    ((fpsRun s0ex ((List.range 256).map (fun n => n + 1))).1.frame_count = 0 ∧
     ((List.range 256).map (fun n => n + 1)).length = 256) := by
  have hfl : (1001 : ℤ) ≤ ⌊fps⌋ := by
    rw [Int.le_floor]
    exact_mod_cast hfps
  have hnat : 1001 ≤ (⌊fps⌋).toNat := by omega
  refine ⟨?_, ?_, by decide, by decide⟩
  · have hne : (⌊fps⌋).toNat ≠ 0 := by omega
    simp [GameLoop.new, hne]
    exact Nat.div_eq_of_lt (by omega)
  · unfold GameLoop.throttle
    rw [hzero]
    simp

/-- C10 witness: the theorem applied at `target_fps = 1001` and the
zero-interval loop state at instant `5`. -/
theorem frame_count_overflow_reachable_witness :
    (1001 : ℚ) ≤ 1001 ∧ s0ex.frame_interval = 0 ∧
    (GameLoop.new 1001 0).map GameLoop.frame_interval = some 0 ∧
    s0ex.throttle 5 = .run (5 - s0ex.previous_instant) :=
  ⟨le_refl _, rfl,
   (frame_count_overflow_reachable 1001 s0ex 5 (le_refl _) rfl).1,
   (frame_count_overflow_reachable 1001 s0ex 5 (le_refl _) rfl).2.1⟩

end Scintillis
